import Mathlib

/-!
# Verification of the utmdash CSV ingestion and analytical query engine

This file is a shallow embedding, in Lean 4, of the core logic of the
utmdash dashboard (`src/App.tsx` and `src/types.ts`): the locale-aware
scalar parser (`cleanAndParse`), the CSV table builder (`parseCSV`), the
date normalizer (`parseBrazilianDate`), the filter engine (`filteredRows`),
the grouping engine (`groupedPerformance`) and the rollup (`stats`).

Modelling conventions:
* JavaScript numbers are modelled as exact rationals (`ℚ`); the source
  only ever manipulates values produced from short decimal literals.
* JavaScript `NaN` outcomes of `Number(...)` are modelled as `none` of an
  `Option ℚ`; the strings `"Infinity"`/`"-Infinity"` (whose JS value is not
  a finite number and hence not representable in `ℚ`) are likewise modelled
  as a failed conversion.
* JavaScript `Date` values are time values in milliseconds since the epoch,
  with the local time zone taken to be UTC; an `Invalid Date` (time value
  `NaN`) is the `invalid` constructor of `DateVal`, and a `null` result of
  the date parser is the `nullDate` constructor.
* JavaScript objects used as dictionaries are association lists in
  insertion order, with assignment overwriting in place and new keys
  appended at the end, as the ECMAScript property order prescribes.
-/

set_option allowUnsafeReducibility true
set_option synthInstance.maxSize 512

attribute [local semireducible] Rat.mul Rat.add Rat.div Rat.sub Rat.neg Rat.inv
  Rat.ofScientific

namespace UTM

/-- The JavaScript whitespace class (`\s`, `trim`): WhiteSpace together with
LineTerminator code points. -/
def jsWs (c : Char) : Bool :=
  ([' ', '\t', '\n', '\r', '\x0B', '\x0C', '\u00A0', '\uFEFF', '\u1680',
    '\u2000', '\u2001', '\u2002', '\u2003', '\u2004', '\u2005', '\u2006',
    '\u2007', '\u2008', '\u2009', '\u200A', '\u2028', '\u2029', '\u202F',
    '\u205F', '\u3000'] : List Char).contains c

/-- JavaScript `String.prototype.trim`. -/
def jsTrim (s : String) : String :=
  (((s.toList.dropWhile jsWs).reverse.dropWhile jsWs).reverse).asString

/-- Model of `.replace(/^"|"$/g, '')`: drop one leading and one trailing double quote. -/
def stripQuotes (s : String) : String :=
  let l := s.toList
  let l1 := match l with
    | '"' :: r => r
    | _ => l
  let l2 := match l1.reverse with
    | '"' :: r => r.reverse
    | _ => l1
  l2.asString

/-- Model of `String.prototype.replace` with a plain-string pattern: replace the first
occurrence of `pat` by `repl` (identity when `pat` does not occur). -/
def replaceFirstL (pat repl : List Char) : List Char → List Char
  | [] => []
  | c :: rest =>
    if pat.isPrefixOf (c :: rest) then repl ++ (c :: rest).drop pat.length
    else c :: replaceFirstL pat repl rest

/-- String wrapper for `replaceFirstL`. -/
def replaceFirst (s pat repl : String) : String :=
  (replaceFirstL pat.toList repl.toList s.toList).asString

/-- Does `pat` occur as a contiguous run inside the list? -/
def containsSeq (pat : List Char) : List Char → Bool
  | [] => pat.isEmpty
  | c :: rest => pat.isPrefixOf (c :: rest) || containsSeq pat rest

/-- JavaScript `String.prototype.includes`. -/
def strIncludes (s sub : String) : Bool :=
  containsSeq sub.toList s.toList

/-- Model of `.replace(/\s/g, '')`: delete every whitespace character. -/
def removeWs (s : String) : String :=
  (s.toList.filter (fun c => !jsWs c)).asString

/-- Model of `.replace(/\./g, '')`: delete every dot. -/
def removeDots (s : String) : String :=
  (s.toList.filter (fun c => !(c == '.'))).asString

/-- JavaScript `String.prototype.toLowerCase` (ASCII range — the only one
exercised by the source's fixed vocabularies). -/
def jsToLower (s : String) : String :=
  (s.toList.map Char.toLower).asString

/-- Does the string contain the given character? -/
def containsChar (s : String) (c : Char) : Bool :=
  s.toList.contains c

/-- Model of `csvText.split(/\r?\n/)` on character lists: split at `\r\n` or `\n`. -/
def splitLinesL : List Char → List (List Char)
  | [] => [[]]
  | '\r' :: '\n' :: rest => [] :: splitLinesL rest
  | '\n' :: rest => [] :: splitLinesL rest
  | c :: rest =>
    match splitLinesL rest with
    | [] => [[c]]
    | l :: ls => (c :: l) :: ls

/-- Model of `csvText.split(/\r?\n/)` on strings. -/
def splitLines (s : String) : List String :=
  (splitLinesL s.toList).map List.asString

/-- The non-blank lines of the CSV text: `.filter(line => line.trim() !== '')`. -/
def nonBlankLines (s : String) : List String :=
  (splitLines s).filter (fun l => !(jsTrim l == ""))

/-- JavaScript `String.prototype.split` with a single-character separator,
on character lists. -/
def splitOnCharL (sep : Char) : List Char → List (List Char)
  | [] => [[]]
  | c :: rest =>
    if c == sep then [] :: splitOnCharL sep rest
    else
      match splitOnCharL sep rest with
      | [] => [[c]]
      | l :: ls => (c :: l) :: ls

/-- JavaScript `String.prototype.split` with a single-character separator. -/
def splitOnChar (sep : Char) (s : String) : List String :=
  (splitOnCharL sep s.toList).map List.asString

/-- Number of double quotes in a character list. -/
def countQ (l : List Char) : Nat := l.countP (fun c => c == '"')

/-- The quote-aware field split `line.split(/,(?=(?:(?:[^"]*"){2})*[^"]*$)/)`:
a comma separates fields exactly when it is followed by an even number of
double quotes up to the end of the line. -/
def qsplitL : List Char → List (List Char)
  | [] => [[]]
  | ',' :: rest =>
    if countQ rest % 2 == 0 then [] :: qsplitL rest
    else
      match qsplitL rest with
      | [] => [[',']]
      | l :: ls => (',' :: l) :: ls
  | c :: rest =>
    match qsplitL rest with
    | [] => [[c]]
    | l :: ls => (c :: l) :: ls

/-- Quote-aware split on strings. -/
def qsplit (s : String) : List String :=
  (qsplitL s.toList).map List.asString

/-- Numeric value of a digit sequence. -/
def digitsToNat (ds : List Char) : Nat :=
  ds.foldl (fun a c => a * 10 + (c.toNat - 48)) 0

/-- Value of a hexadecimal digit. -/
def hexDigitVal (c : Char) : Nat :=
  if c.isDigit then c.toNat - 48
  else if 'a' ≤ c && c ≤ 'f' then c.toNat - 87
  else c.toNat - 55

/-- Is the character a hexadecimal digit? -/
def isHexDig (c : Char) : Bool :=
  c.isDigit || ('a' ≤ c && c ≤ 'f') || ('A' ≤ c && c ≤ 'F')

/-- Parse a non-empty all-digit sequence as an integer; `none` otherwise. -/
def parseDigitsInt (r : List Char) : Option Int :=
  if !r.isEmpty && r.all Char.isDigit then some (digitsToNat r) else none

/-- Optional sign followed by decimal digits (exponent body). -/
def parseSignedDigits : List Char → Option Int
  | '+' :: r => parseDigitsInt r
  | '-' :: r => (parseDigitsInt r).map Neg.neg
  | r => parseDigitsInt r

/-- Exponent part of a decimal literal: empty, or `e`/`E` then signed digits. -/
def parseExpPart : List Char → Option Int
  | [] => some 0
  | 'e' :: r => parseSignedDigits r
  | 'E' :: r => parseSignedDigits r
  | _ => none

/-- Rational value of `ipart.fp × 10^e`. -/
def mkDec (ipart : Nat) (fp : List Char) (e : Int) : ℚ :=
  ((ipart : ℚ) + (digitsToNat fp : ℚ) / (10 : ℚ) ^ (fp.length)) * (10 : ℚ) ^ e

/-- ECMAScript `StrUnsignedDecimalLiteral` (minus `Infinity`, see module
doc): `digits [. digits] [exp]` or `. digits [exp]`. -/
def parseDecimal (cs : List Char) : Option ℚ :=
  let ip := cs.takeWhile Char.isDigit
  let r1 := cs.dropWhile Char.isDigit
  if ip.isEmpty then
    match r1 with
    | '.' :: r2 =>
      let fp := r2.takeWhile Char.isDigit
      let r3 := r2.dropWhile Char.isDigit
      if fp.isEmpty then none
      else (parseExpPart r3).map (fun e => mkDec 0 fp e)
    | _ => none
  else
    match r1 with
    | '.' :: r2 =>
      let fp := r2.takeWhile Char.isDigit
      let r3 := r2.dropWhile Char.isDigit
      (parseExpPart r3).map (fun e => mkDec (digitsToNat ip) fp e)
    | r => (parseExpPart r).map (fun e => mkDec (digitsToNat ip) [] e)

/-- ECMAScript `NonDecimalIntegerLiteral`: `0x`, `0o`, `0b` forms. -/
def parseNonDecimal (cs : List Char) : Option ℚ :=
  match cs with
  | '0' :: b :: r =>
    if (b == 'x' || b == 'X') && !r.isEmpty && r.all isHexDig then
      some ((r.foldl (fun a c => a * 16 + hexDigitVal c) 0 : Nat) : ℚ)
    else if (b == 'o' || b == 'O') && !r.isEmpty && r.all (fun c => '0' ≤ c && c ≤ '7') then
      some ((r.foldl (fun a c => a * 8 + (c.toNat - 48)) 0 : Nat) : ℚ)
    else if (b == 'b' || b == 'B') && !r.isEmpty && r.all (fun c => c == '0' || c == '1') then
      some ((r.foldl (fun a c => a * 2 + (c.toNat - 48)) 0 : Nat) : ℚ)
    else none
  | _ => none

/-- JavaScript `Number(string)`: `none` models `NaN` (and the non-finite
`Infinity` values, which `ℚ` cannot represent). The empty or all-whitespace
string converts to `0`. -/
def jsNumber (s : String) : Option ℚ :=
  let cs := ((s.toList.dropWhile jsWs).reverse.dropWhile jsWs).reverse
  match cs with
  | [] => some 0
  | '+' :: r => parseDecimal r
  | '-' :: r => (parseDecimal r).map Neg.neg
  | _ =>
    match parseNonDecimal cs with
    | some v => some v
    | none => parseDecimal cs

/-- A cell scalar: JavaScript `number | string` as produced by the parser. -/
inductive Scalar where
  | num (q : ℚ)
  | str (s : String)
deriving DecidableEq

/-- The regular-expression test `/^-?[\d\.]+,[\d]+$/` of `cleanAndParse`. -/
def decCommaTest (s : String) : Bool :=
  let l := s.toList
  let l1 := match l with
    | '-' :: r => r
    | _ => l
  let pre := l1.takeWhile (fun c => c.isDigit || c == '.')
  let rest := l1.dropWhile (fun c => c.isDigit || c == '.')
  !pre.isEmpty &&
    (match rest with
     | ',' :: suf => !suf.isEmpty && suf.all Char.isDigit
     | _ => false)

/-- The cleaning pipeline of `cleanAndParse` on a value whose trim is
non-empty: strip quotes; when a currency marker, percent marker or a
decimal-comma shape is present, remove the markers and all whitespace and
normalise the decimal separator. -/
def cleanedCore (val : String) : String :=
  let cleaned0 := stripQuotes (jsTrim val)
  if strIncludes cleaned0 "R$" || strIncludes cleaned0 "%" || decCommaTest cleaned0 then
    let c1 := removeWs (replaceFirst (replaceFirst cleaned0 "R$" "") "%" "")
    if containsChar c1 ',' && containsChar c1 '.' then
      replaceFirst (removeDots c1) "," "."
    else if containsChar c1 ',' then
      replaceFirst c1 "," "."
    else c1
  else cleaned0

/-- The cleaned form a raw token is reduced to before numeric conversion
(empty for empty or all-whitespace input). -/
def cleanedForm (val : String) : String :=
  if jsTrim val == "" then "" else cleanedCore val

/-- Model of `cleanAndParse` (src/App.tsx:28-48): empty input stays the empty string;
otherwise the cleaned form is numerically converted, a successful conversion
of a non-empty cleaned string yielding the number and anything else the
cleaned string itself. -/
def cleanAndParse (val : String) : Scalar :=
  if jsTrim val == "" then Scalar.str ""
  else
    let cleaned := cleanedCore val
    match jsNumber cleaned with
    | some n => if !(cleaned == "") then Scalar.num n else Scalar.str cleaned
    | none => Scalar.str cleaned

/-- A data row (`DataRow` of src/types.ts): a JavaScript object mapping
column names to scalars, kept as an association list in insertion order. -/
abbrev Row : Type := List (String × Scalar)

/-- JavaScript property read `row[key]`: `none` models `undefined`. -/
def rowGet (r : Row) (k : String) : Option Scalar :=
  (List.find? (fun p => p.1 == k) r).map (fun p => p.2)

/-- JavaScript property write `row[key] = v`: overwrite in place when the
key exists (rows only ever hold one entry per key), append at the end
otherwise. -/
def rowSet : Row → String → Scalar → Row
  | [], k, v => [(k, v)]
  | p :: rest, k, v => if p.1 == k then (k, v) :: rest else p :: rowSet rest k v

/-- The row-building loop of `parseCSV` (src/App.tsx:50-57):
`headers.forEach((header, index) => row[header] = cleanAndParse(values[index] || ''))`,
with the running `index` carried explicitly. A missing or empty field
(`values[index] || ''`) is parsed as the empty string. -/
def buildRow (vals : List String) : List String → Nat → Row → Row
  | [], _, r => r
  | h :: hs, i, r => buildRow vals hs (i + 1) (rowSet r h (cleanAndParse (vals.getD i "")))

/-- The inferred column type (`'number' | 'string'` in the source). -/
inductive ColType where
  | number
  | string
deriving DecidableEq

/-- The predicate of the type-inference scan (src/App.tsx:61):
`r[header] !== undefined && r[header] !== '' && typeof r[header] === 'number'`. -/
def numericCellPred (h : String) (r : Row) : Bool :=
  (rowGet r h).isSome && !(rowGet r h == some (Scalar.str "")) &&
    (match rowGet r h with
     | some (Scalar.num _) => true
     | _ => false)

/-- Type inference for one column (src/App.tsx:59-63): the first row whose
value satisfies `numericCellPred` supplies `firstVal`;
`typeof firstVal === 'number' ? 'number' : 'string'`. -/
def inferType (rows : List Row) (h : String) : ColType :=
  match List.find? (numericCellPred h) rows with
  | some r =>
    match rowGet r h with
    | some (Scalar.num _) => ColType.number
    | _ => ColType.string
  | none => ColType.string

/-- The ingested table (`DashboardData` of src/types.ts). The `types`
object assigns each header a value depending only on the header name, so
it is recorded as the association list `headers.map (h ↦ (h, inferType h))`;
lookup agrees with the JavaScript object for every key. -/
structure Table where
  headers : List String
  rows : List Row
  types : List (String × ColType)
deriving DecidableEq

/-- Lookup in the `types` association list. -/
def typesGet (ts : List (String × ColType)) (k : String) : Option ColType :=
  (List.find? (fun p => p.1 == k) ts).map (fun p => p.2)

/-- Model of `parseCSV` (src/App.tsx:22-66): split into lines, drop blank ones,
`null` when none remain; first line gives the headers (plain comma split,
trim, strip quotes); each further line gives a row via the quote-aware
split, trimming and `cleanAndParse`; finally infer one type per header. -/
def parseCSV (csvText : String) : Option Table :=
  let lines := nonBlankLines csvText
  match lines with
  | [] => none
  | first :: dataLines =>
    let headers := (splitOnChar ',' first).map (fun h => stripQuotes (jsTrim h))
    let rows := dataLines.map (fun line => buildRow ((qsplit line).map jsTrim) headers 0 [])
    some { headers := headers
           rows := rows
           types := headers.map (fun h => (h, inferType rows h)) }

/-- Decimal rendering of a rational, standing in for JavaScript
`Number.prototype.toString`: integers render as plain integers, other
rationals whose denominator divides a power of ten render with a decimal
point and no trailing zeros (exactly the JS output for the short decimal
values the scalar parser produces); remaining rationals fall back to a
fraction rendering (JS exponent notation is not modelled — no value flowing
out of the parser needs it). -/
def ratToString (q : ℚ) : String :=
  if q.den = 1 then toString q.num
  else
    let sign := if q < 0 then "-" else ""
    let a : ℚ := |q|
    match (List.range 64).find? (fun k => (a * (10 : ℚ) ^ (k + 1)).den == 1) with
    | some k =>
      let k1 := k + 1
      let n := (a * (10 : ℚ) ^ k1).num.toNat
      let ds := toString n
      let ds := if ds.length ≤ k1 then
          (List.replicate (k1 + 1 - ds.length) '0').asString ++ ds
        else ds
      let l := ds.toList
      sign ++ (l.take (l.length - k1)).asString ++ "." ++ (l.drop (l.length - k1)).asString
    | none => toString q.num ++ "/" ++ toString q.den

/-- Model of `String(cell)` for a scalar. -/
def jsToStr : Scalar → String
  | Scalar.num q => ratToString q
  | Scalar.str s => s

/-- Model of `String(row[col] ?? dflt)`: the default replaces only a missing
(`undefined`) cell. -/
def stringNullish (o : Option Scalar) (dflt : String) : String :=
  match o with
  | none => dflt
  | some sc => jsToStr sc

/-- Model of `String(row[col] || dflt)`: the default replaces every falsy cell —
missing, the number `0`, or the empty string. -/
def stringFalsy (o : Option Scalar) (dflt : String) : String :=
  match o with
  | none => dflt
  | some (Scalar.num q) => if q == 0 then dflt else ratToString q
  | some (Scalar.str s) => if s == "" then dflt else s

/-- Model of `String(row[h])` with no default: a missing cell prints as
`"undefined"`. -/
def stringCell (o : Option Scalar) : String :=
  stringNullish o "undefined"

/-- Result of the date normalizer: `null`, an `Invalid Date` (time value
`NaN`), or a valid date with its time value in milliseconds. -/
inductive DateVal where
  | nullDate
  | invalid
  | valid (ms : Int)
deriving DecidableEq

/-- Is the result the JavaScript `null` (the only falsy case — an
`Invalid Date` object is truthy)? -/
def DateVal.isNull : DateVal → Bool
  | DateVal.nullDate => true
  | _ => false

/-- Days since the Unix epoch of the civil date `y-m-d` (`m ∈ 1..12`),
proleptic Gregorian. -/
def daysFromCivil (y m d : Int) : Int :=
  let y1 := if m ≤ 2 then y - 1 else y
  let era := y1.fdiv 400
  let yoe := y1 - era * 400
  let mp := (m + 9) % 12
  let doy := (153 * mp + 2) / 5 + d - 1
  let doe := yoe * 365 + yoe / 4 - yoe / 100 + doy
  era * 146097 + doe - 719468

/-- Model of `ToIntegerOrInfinity` on a finite number: truncate toward zero. -/
def jsTrunc (q : ℚ) : Int :=
  q.num.tdiv (q.den : Int)

/-- Time value of `new Date(year, monthIndex, day)` (local = UTC): truncate
the arguments, map two-digit years to 1900–1999, normalise the month with
rollover, and count days. The ±8.64e15 range clamp of JavaScript time
values is not modelled. -/
def jsMakeDateNum (year monthIndex day : ℚ) : Int :=
  let yi := jsTrunc year
  let mi := jsTrunc monthIndex
  let di := jsTrunc day
  let yi := if 0 ≤ yi && yi ≤ 99 then yi + 1900 else yi
  let ny := yi + mi.fdiv 12
  let nm := mi.emod 12
  (daysFromCivil ny (nm + 1) 1 + (di - 1)) * 86400000

/-- Days in a month of the proleptic Gregorian calendar. -/
def daysInMonth (y m : Int) : Int :=
  if m == 2 then (if (y % 4 == 0 && !(y % 100 == 0)) || y % 400 == 0 then 29 else 28)
  else if m == 4 || m == 6 || m == 9 || m == 11 then 30 else 31

/-- The date-only ISO form `YYYY-MM-DD` of the JavaScript `Date` string
parser, interpreted at UTC midnight; every other string shape is modelled
as unparseable (`none`). -/
def isoParse (s : String) : Option Int :=
  match splitOnChar '-' s with
  | [ys, ms, ds] =>
    if ys.length == 4 && ms.length == 2 && ds.length == 2
        && ys.toList.all Char.isDigit && ms.toList.all Char.isDigit
        && ds.toList.all Char.isDigit then
      let y : Int := digitsToNat ys.toList
      let m : Int := digitsToNat ms.toList
      let d : Int := digitsToNat ds.toList
      if 1 ≤ m && m ≤ 12 && 1 ≤ d && d ≤ daysInMonth y m then
        some (daysFromCivil y m d * 86400000)
      else none
    else none
  | _ => none

/-- The string branch of `parseBrazilianDate` (src/App.tsx:261-269): take
the part before the first space, split on `/`; with exactly three parts
build `new Date(p2, p1 - 1, p0)` — note that when a part is not numeric the
result is an `Invalid Date`, not `null`, because only the ISO fallback
branch checks `isNaN`. -/
def parseDateStr (dateStr : String) : DateVal :=
  if dateStr == "" then DateVal.nullDate
  else
    let before := (dateStr.toList.takeWhile (fun c => !(c == ' '))).asString
    let parts := splitOnChar '/' before
    if parts.length == 3 then
      match jsNumber (parts.getD 0 ""), jsNumber (parts.getD 1 ""), jsNumber (parts.getD 2 "") with
      | some d, some m, some y => DateVal.valid (jsMakeDateNum y (m - 1) d)
      | _, _, _ => DateVal.invalid
    else
      match isoParse dateStr with
      | some t => DateVal.valid t
      | none => DateVal.nullDate

/-- Model of `parseBrazilianDate` on a cell: non-strings (missing cells and numbers)
and the empty string yield `null`. -/
def parseBrazilianDate (cell : Option Scalar) : DateVal :=
  match cell with
  | some (Scalar.str s) => parseDateStr s
  | _ => DateVal.nullDate

/-- Comparison `a < b` on date values: comparisons involving an `Invalid Date`
(`NaN` time value) are false. -/
def dLtB : DateVal → DateVal → Bool
  | DateVal.valid a, DateVal.valid b => decide (a < b)
  | _, _ => false

/-- Comparison `a > b` on date values, with the same `NaN` behaviour. -/
def dGtB : DateVal → DateVal → Bool
  | DateVal.valid a, DateVal.valid b => decide (b < a)
  | _, _ => false

/-- Model of `rowDate.toDateString() === today.toDateString()` against the current
instant: an `Invalid Date` prints `"Invalid Date"` and never equals a real
date's string; two valid dates agree exactly when they fall on the same
(local = UTC) calendar day. -/
def sameDayAs (rd : DateVal) (nowMs : Int) : Bool :=
  match rd with
  | DateVal.valid t => t.fdiv 86400000 == nowMs.fdiv 86400000
  | _ => false

/-- Model of `cleanUTMSource` (src/App.tsx:245-254). -/
def cleanUTMSource (val : String) : String :=
  if val == "" then "organic"
  else
    let s := jsToLower val
    if strIncludes s "tiktok" then "tiktok"
    else if strIncludes s "facebook" || strIncludes s "fb" then "facebook"
    else if strIncludes s "instagram" || strIncludes s "ig" then "instagram"
    else if strIncludes s "google" then "google"
    else if strIncludes s "kwai" then "kwai"
    else val

/-- Model of `cleanUTMCampaign` (src/App.tsx:256-259): the part before the first
`|`, trimmed; empty input becomes `n/a`. -/
def cleanUTMCampaign (val : String) : String :=
  if val == "" then "n/a"
  else jsTrim ((val.toList.takeWhile (fun c => !(c == '|'))).asString)

/-- The six date presets of the dashboard. -/
inductive DatePreset where
  | all
  | today
  | d7
  | d15
  | d30
  | custom
deriving DecidableEq

/-- The query snapshot the filter engine consumes: resolved column names,
the categorical filter map in entry order, the search term, the date
preset with its custom bounds, and the current instant `nowMs`
(`new Date()`), local time being modelled as UTC. -/
structure Query where
  colData : Option String
  colSource : Option String
  colCampaign : Option String
  headers : List String
  filters : List (String × List String)
  searchTerm : String
  datePreset : DatePreset
  customStartDate : String
  customEndDate : String
  nowMs : Int

/-- The date-range predicate of `filteredRows` (src/App.tsx:306-330). The
source computes `sevenDaysAgo` by `setDate(now.getDate() - 7)` on a fresh
`new Date()`; setting the day-of-month field is linear in its argument
(with month rollover), so the threshold equals `nowMs` minus exactly seven
days, and likewise for 15 and 30. A `null` parse is rejected up front; an
`Invalid Date` only fails the `today` string comparison, every `NaN`
order comparison being false. -/
def datePass (q : Query) (row : Row) : Bool :=
  match q.colData with
  | none => true
  | some cd =>
    if q.datePreset == DatePreset.all then true
    else
      let rowDate := parseBrazilianDate (rowGet row cd)
      if rowDate.isNull then false
      else
        match q.datePreset with
        | DatePreset.today => sameDayAs rowDate q.nowMs
        | DatePreset.d7 => !(dLtB rowDate (DateVal.valid (q.nowMs - 7 * 86400000)))
        | DatePreset.d15 => !(dLtB rowDate (DateVal.valid (q.nowMs - 15 * 86400000)))
        | DatePreset.d30 => !(dLtB rowDate (DateVal.valid (q.nowMs - 30 * 86400000)))
        | DatePreset.custom =>
          if !(q.customStartDate == "") && !(q.customEndDate == "") then
            let start := match isoParse q.customStartDate with
              | some t => DateVal.valid t
              | none => DateVal.invalid
            let stop := match isoParse q.customEndDate with
              | some t => DateVal.valid (t + 86399999)
              | none => DateVal.invalid
            !(dLtB rowDate start || dGtB rowDate stop)
          else true
        | DatePreset.all => true

/-- The categorical predicate of `filteredRows` (src/App.tsx:331-338): every
filter entry with a non-empty accepted set must contain the row's value,
normalised through the source and campaign cleaners when the entry's column
is the resolved source or campaign column. -/
def matchesFilters (q : Query) (row : Row) : Bool :=
  q.filters.all (fun p =>
    if p.2.isEmpty then true
    else
      let rv0 := stringNullish (rowGet row p.1) "N/A"
      let rv1 := if q.colSource == some p.1 then cleanUTMSource rv0 else rv0
      let rv2 := if q.colCampaign == some p.1 then cleanUTMCampaign rv1 else rv1
      p.2.contains rv2)

/-- The free-text predicate of `filteredRows` (src/App.tsx:339-341). -/
def matchesSearch (q : Query) (row : Row) : Bool :=
  q.searchTerm == "" ||
    q.headers.any (fun h =>
      strIncludes (jsToLower (stringCell (rowGet row h))) (jsToLower q.searchTerm))

/-- The complete per-row predicate of `filteredRows`. -/
def rowPasses (q : Query) (row : Row) : Bool :=
  datePass q row && (matchesFilters q row && matchesSearch q row)

/-- Model of `filteredRows` (src/App.tsx:302-344): keep, in order, the rows
passing the date, categorical and search predicates. The `_id` display key
that `rowsWithIndex` appends to each row is omitted: no predicate consults
it (the search iterates over `data.headers` only). -/
def filteredRows (q : Query) (rows : List Row) : List Row :=
  rows.filter (rowPasses q)

/-- The column parameters of the grouping engine and the rollup: the
resolved (possibly missing) header names for source, campaign, product,
content, date and revenue. -/
structure GroupCols where
  colSource : Option String
  colCampaign : Option String
  colProduto : Option String
  colContent : Option String
  colData : Option String
  colFaturamento : Option String

/-- Model of `Number(row[col || '']) || 0`: revenue coercion, any non-numeric or
missing cell counting as 0. -/
def toNumOr0 (o : Option Scalar) : ℚ :=
  match o with
  | some (Scalar.num q) => q
  | some (Scalar.str s) => (jsNumber s).getD 0
  | none => 0

/-- One aggregation cluster of `groupedPerformance` (src/App.tsx:359-370). -/
structure Group where
  source : String
  campanha : String
  vendas : Nat
  faturamento : ℚ
  minDate : String
  maxDate : String
  productsMap : List (String × Nat)
  contents : List String
  key : String
deriving DecidableEq

/-- Model of `groups[key].productsMap[prodName] = (productsMap[prodName] || 0) + 1`:
bump an insertion-ordered counter object. -/
def bumpProd (m : List (String × Nat)) (p : String) : List (String × Nat) :=
  if m.any (fun q => q.1 == p) then
    m.map (fun q => if q.1 == p then (q.1, q.2 + 1) else q)
  else m ++ [(p, 1)]

/-- Model of `contents.add(content)`: a `Set` keeps insertion order and ignores
duplicates. -/
def addContent (l : List String) (c : String) : List String :=
  if l.contains c then l else l ++ [c]

/-- The per-row cluster update (src/App.tsx:372-386): bump the sale count,
add the revenue, track the product and content, and move the min/max date
strings when the row's date parses and compares strictly (an `Invalid
Date` is truthy but every comparison against it is false, so it never
moves a bound). -/
def updGroup (g : Group) (rVal : ℚ) (prodName content rowDateStr : String) : Group :=
  let g1 := { g with
    vendas := g.vendas + 1
    faturamento := g.faturamento + rVal
    productsMap := bumpProd g.productsMap prodName
    contents := addContent g.contents content }
  let dCurr := parseDateStr rowDateStr
  let dMin := parseDateStr g1.minDate
  let dMax := parseDateStr g1.maxDate
  let g2 := if !dCurr.isNull && !dMin.isNull && dLtB dCurr dMin then
      { g1 with minDate := rowDateStr } else g1
  if !dCurr.isNull && !dMax.isNull && dGtB dCurr dMax then
    { g2 with maxDate := rowDateStr } else g2

/-- A fresh cluster as first created for a key (src/App.tsx:359-371),
before the unconditional updates run. -/
def initGroup (s c key rowDateStr : String) : Group :=
  { source := s, campanha := c, vendas := 0, faturamento := 0,
    minDate := rowDateStr, maxDate := rowDateStr, productsMap := [],
    contents := [], key := key }

/-- The values the grouping loop extracts from one row
(src/App.tsx:350-357). -/
def rowKeyOf (gc : GroupCols) (row : Row) : String :=
  let s := cleanUTMSource (stringFalsy (rowGet row (gc.colSource.getD "")) "")
  let c := cleanUTMCampaign (stringFalsy (rowGet row (gc.colCampaign.getD "")) "")
  s ++ "|" ++ c

/-- Update-or-append on the insertion-ordered cluster list — exactly the
`groups[key]` object dynamics: the matching cluster is updated in place,
a missing key appends a fresh cluster at the end. -/
def groupUpsert (key : String) (upd : Group → Group) (mk : Group) :
    List Group → List Group
  | [] => [upd mk]
  | g :: rest =>
    if g.key == key then upd g :: rest else g :: groupUpsert key upd mk rest

/-- Insert one row into the cluster list (the body of the forEach loop,
src/App.tsx:349-387). -/
def groupInsert (gc : GroupCols) (row : Row) (gs : List Group) : List Group :=
  let s := cleanUTMSource (stringFalsy (rowGet row (gc.colSource.getD "")) "")
  let c := cleanUTMCampaign (stringFalsy (rowGet row (gc.colCampaign.getD "")) "")
  let key := s ++ "|" ++ c
  let prodName := stringFalsy (rowGet row (gc.colProduto.getD "")) "N/A"
  let content := stringFalsy (rowGet row (gc.colContent.getD "")) "N/A"
  let rowDateStr := ((stringCell (rowGet row (gc.colData.getD ""))).toList.takeWhile
    (fun ch => !(ch == ' '))).asString
  let rVal := toNumOr0 (rowGet row (gc.colFaturamento.getD ""))
  groupUpsert key (fun g => updGroup g rVal prodName content rowDateStr)
    (initGroup s c key rowDateStr) gs

/-- The cluster list in key-first-encounter order, before sorting:
`Object.values(groups)` after the forEach loop. -/
def foldGroups (gc : GroupCols) (rows : List Row) : List Group :=
  rows.foldl (fun gs row => groupInsert gc row gs) []

/-- Stable insertion of a cluster into a list sorted by descending sale
count: an element moves past another only when its count is strictly
larger, so equal counts keep their relative order. -/
def insertDesc (x : Group) : List Group → List Group
  | [] => [x]
  | y :: ys => if y.vendas ≤ x.vendas then x :: y :: ys else y :: insertDesc x ys

/-- Stable sort by descending sale count, modelling
`.sort((a, b) => b.vendas - a.vendas)` — ECMAScript `Array.prototype.sort`
is stable, and a stable sort for a total preorder is unique, so this
insertion sort computes the same list. -/
def sortDesc : List Group → List Group
  | [] => []
  | x :: xs => insertDesc x (sortDesc xs)

/-- Model of `groupedPerformance` (src/App.tsx:347-390): fold the filtered rows into
clusters keyed by cleaned source and campaign, then sort by descending
sale count. -/
def groupedPerformance (gc : GroupCols) (rows : List Row) : List Group :=
  sortDesc (foldGroups gc rows)

/-- The rollup record of `stats` (src/App.tsx:441-449). -/
structure Stats where
  fat : ℚ
  gas : ℚ
  imp : ℚ
  luc : ℚ
  roas : ℚ
deriving DecidableEq

/-- Model of `stats` (src/App.tsx:441-449): revenue sum over the filtered rows, 6%
tax, manual investment, profit, and ROAS guarded against a zero
investment. -/
def stats (colFaturamento : Option String) (manualInvestment : ℚ)
    (rows : List Row) : Stats :=
  let fat := rows.foldl (fun acc row => acc + toNumOr0 (rowGet row (colFaturamento.getD ""))) 0
  let imp := fat * (6 / 100)
  let gas := manualInvestment
  let luc := fat - gas - imp
  let avgRoas := if gas > 0 then fat / gas else 0
  { fat := fat, gas := gas, imp := imp, luc := luc, roas := avgRoas }

/-- JavaScript division returning `none` for the non-finite outcomes
`NaN` and `±Infinity` (finite operands with a zero divisor). -/
def jsDiv (a b : ℚ) : Option ℚ :=
  if b = 0 then none else some (a / b)

/-- Per-cluster CPA (src/App.tsx:527):
`group.vendas > 0 ? investment / group.vendas : 0`, through `jsDiv` so
that an unguarded division by zero would surface as `none`. -/
def clusterCPA (investment : ℚ) (g : Group) : Option ℚ :=
  if 0 < g.vendas then jsDiv investment (g.vendas : ℚ) else some 0

/-- Per-cluster ROI (src/App.tsx:528):
`investment > 0 ? group.faturamento / investment : 0`, through `jsDiv`. -/
def clusterROI (investment : ℚ) (g : Group) : Option ℚ :=
  if 0 < investment then jsDiv g.faturamento investment else some 0

/-! ## Lemmas about the grouping engine -/

/-- Total sale count of a cluster list. -/
def sumVendas (gs : List Group) : Nat := (gs.map Group.vendas).sum

/-- Total revenue of a cluster list. -/
def sumFat (gs : List Group) : ℚ := (gs.map Group.faturamento).sum

theorem updGroup_vendas (g : Group) (rVal : ℚ) (p c d : String) :
    (updGroup g rVal p c d).vendas = g.vendas + 1 := by
  simp only [updGroup]
  split <;> split <;> rfl

theorem updGroup_faturamento (g : Group) (rVal : ℚ) (p c d : String) :
    (updGroup g rVal p c d).faturamento = g.faturamento + rVal := by
  simp only [updGroup]
  split <;> split <;> rfl

theorem updGroup_key (g : Group) (rVal : ℚ) (p c d : String) :
    (updGroup g rVal p c d).key = g.key := by
  simp only [updGroup]
  split <;> split <;> rfl

theorem sumVendas_upsert (key p c d : String) (rVal : ℚ) (mk : Group)
    (hmk : mk.vendas = 0) (gs : List Group) :
    sumVendas (groupUpsert key (fun g => updGroup g rVal p c d) mk gs) =
      sumVendas gs + 1 := by
  induction gs with
  | nil => simp [groupUpsert, sumVendas, updGroup_vendas, hmk]
  | cons g rest ih =>
    unfold groupUpsert
    split
    · simp [sumVendas, updGroup_vendas]
      omega
    · simp only [sumVendas, List.map_cons, List.sum_cons] at ih ⊢
      omega

theorem sumFat_upsert (key p c d : String) (rVal : ℚ) (mk : Group)
    (hmk : mk.faturamento = 0) (gs : List Group) :
    sumFat (groupUpsert key (fun g => updGroup g rVal p c d) mk gs) =
      sumFat gs + rVal := by
  induction gs with
  | nil => simp [groupUpsert, sumFat, updGroup_faturamento, hmk]
  | cons g rest ih =>
    unfold groupUpsert
    split
    · simp [sumFat, updGroup_faturamento]
      ring
    · simp only [sumFat, List.map_cons, List.sum_cons] at ih ⊢
      rw [ih]
      ring

theorem sumVendas_groupInsert (gc : GroupCols) (row : Row) (gs : List Group) :
    sumVendas (groupInsert gc row gs) = sumVendas gs + 1 := by
  simp only [groupInsert]
  exact sumVendas_upsert _ _ _ _ _ _ rfl gs

theorem sumFat_groupInsert (gc : GroupCols) (row : Row) (gs : List Group) :
    sumFat (groupInsert gc row gs) =
      sumFat gs + toNumOr0 (rowGet row (gc.colFaturamento.getD "")) := by
  simp only [groupInsert]
  exact sumFat_upsert _ _ _ _ _ _ rfl gs

theorem sumVendas_foldl (gc : GroupCols) (rows : List Row) :
    ∀ gs : List Group,
      sumVendas (rows.foldl (fun a r => groupInsert gc r a) gs) =
        sumVendas gs + rows.length := by
  induction rows with
  | nil => intro gs; simp
  | cons r rs ih =>
    intro gs
    simp only [List.foldl_cons, List.length_cons]
    rw [ih, sumVendas_groupInsert]
    omega

theorem sumFat_foldl (gc : GroupCols) (rows : List Row) :
    ∀ gs : List Group,
      sumFat (rows.foldl (fun a r => groupInsert gc r a) gs) =
        sumFat gs +
          (rows.map (fun r => toNumOr0 (rowGet r (gc.colFaturamento.getD "")))).sum := by
  induction rows with
  | nil => intro gs; simp [sumFat]
  | cons r rs ih =>
    intro gs
    simp only [List.foldl_cons, List.map_cons, List.sum_cons]
    rw [ih, sumFat_groupInsert]
    ring

theorem insertDesc_perm (x : Group) (l : List Group) :
    (insertDesc x l).Perm (x :: l) := by
  induction l with
  | nil => exact List.Perm.refl _
  | cons y ys ih =>
    unfold insertDesc
    split
    · exact List.Perm.refl _
    · exact (ih.cons y).trans (List.Perm.swap x y ys)

theorem sortDesc_perm (l : List Group) : (sortDesc l).Perm l := by
  induction l with
  | nil => exact List.Perm.refl _
  | cons x xs ih =>
    exact (insertDesc_perm x (sortDesc xs)).trans (ih.cons x)

theorem pairwise_insertDesc (x : Group) (l : List Group)
    (h : l.Pairwise (fun a b => b.vendas ≤ a.vendas)) :
    (insertDesc x l).Pairwise (fun a b => b.vendas ≤ a.vendas) := by
  induction l with
  | nil => simp [insertDesc]
  | cons y ys ih =>
    unfold insertDesc
    split
    · rename_i hle
      refine List.Pairwise.cons ?_ h
      intro z hz
      rcases List.mem_cons.mp hz with rfl | hz
      · exact hle
      · exact le_trans (List.rel_of_pairwise_cons h hz) hle
    · rename_i hgt
      refine List.Pairwise.cons ?_ (ih (List.Pairwise.of_cons h))
      intro z hz
      have hz2 := (insertDesc_perm x ys).mem_iff.mp hz
      rcases List.mem_cons.mp hz2 with rfl | hz2
      · omega
      · exact List.rel_of_pairwise_cons h hz2

theorem pairwise_sortDesc (l : List Group) :
    (sortDesc l).Pairwise (fun a b => b.vendas ≤ a.vendas) := by
  induction l with
  | nil => simp [sortDesc]
  | cons x xs ih => exact pairwise_insertDesc x (sortDesc xs) ih

theorem filter_insertDesc (x : Group) (l : List Group) (n : Nat) :
    (insertDesc x l).filter (fun g => g.vendas == n) =
      (x :: l).filter (fun g => g.vendas == n) := by
  induction l with
  | nil => rfl
  | cons y ys ih =>
    unfold insertDesc
    split
    · rfl
    · rename_i hgt
      by_cases hx : x.vendas = n <;> by_cases hy : y.vendas = n
      · omega
      · simp [List.filter_cons, hx, hy, ih]
      · simp [List.filter_cons, hx, hy, ih]
      · simp [List.filter_cons, hx, hy, ih]

theorem filter_sortDesc (l : List Group) (n : Nat) :
    (sortDesc l).filter (fun g => g.vendas == n) =
      l.filter (fun g => g.vendas == n) := by
  induction l with
  | nil => rfl
  | cons x xs ih =>
    unfold sortDesc
    rw [filter_insertDesc]
    simp only [List.filter_cons]
    rw [ih]

/-- First-occurrence deduplication: the keys of `l` in the order each is
first seen, skipping those already in `seen`. -/
def firstOcc (seen : List String) : List String → List String
  | [] => []
  | k :: ks => if k ∈ seen then firstOcc seen ks else k :: firstOcc (k :: seen) ks

theorem firstOcc_cons (seen : List String) (k : String) (ks : List String) :
    firstOcc seen (k :: ks) =
      if k ∈ seen then firstOcc seen ks else k :: firstOcc (k :: seen) ks := rfl

theorem firstOcc_congr (l : List String) :
    ∀ s1 s2 : List String, (∀ x, x ∈ s1 ↔ x ∈ s2) → firstOcc s1 l = firstOcc s2 l := by
  induction l with
  | nil => intro s1 s2 _; rfl
  | cons k ks ih =>
    intro s1 s2 h
    unfold firstOcc
    by_cases hk : k ∈ s1
    · rw [if_pos hk, if_pos ((h k).mp hk)]
      exact ih s1 s2 h
    · rw [if_neg hk, if_neg (fun hc => hk ((h k).mpr hc))]
      refine congrArg (k :: ·) (ih (k :: s1) (k :: s2) ?_)
      intro x
      simp [h x]

theorem map_key_upsert_mem (key : String) (upd : Group → Group) (mk : Group)
    (hupd : ∀ g, (upd g).key = g.key) (gs : List Group)
    (h : key ∈ gs.map Group.key) :
    (groupUpsert key upd mk gs).map Group.key = gs.map Group.key := by
  induction gs with
  | nil => simp at h
  | cons g rest ih =>
    unfold groupUpsert
    split
    · simp [hupd]
    · rename_i hne
      simp only [List.map_cons]
      simp only [List.map_cons, List.mem_cons] at h
      have hmem : key ∈ rest.map Group.key := by
        rcases h with h | h
        · exact absurd (beq_iff_eq.mpr h.symm) hne
        · exact h
      rw [ih hmem]

theorem map_key_upsert_notMem (key : String) (upd : Group → Group) (mk : Group)
    (hupd : ∀ g, (upd g).key = g.key) (gs : List Group)
    (h : key ∉ gs.map Group.key) :
    (groupUpsert key upd mk gs).map Group.key = gs.map Group.key ++ [mk.key] := by
  induction gs with
  | nil => simp [groupUpsert, hupd]
  | cons g rest ih =>
    simp only [List.map_cons, List.mem_cons, not_or] at h
    obtain ⟨h1, h2⟩ := h
    unfold groupUpsert
    split
    · rename_i heq
      exact absurd (beq_iff_eq.mp heq).symm h1
    · simp only [List.map_cons, List.cons_append]
      rw [ih h2]

theorem map_key_groupInsert (gc : GroupCols) (row : Row) (gs : List Group) :
    (groupInsert gc row gs).map Group.key =
      (if rowKeyOf gc row ∈ gs.map Group.key then gs.map Group.key
       else gs.map Group.key ++ [rowKeyOf gc row]) := by
  simp only [groupInsert, rowKeyOf]
  split
  · rename_i h
    exact map_key_upsert_mem _ _ _ (fun g => updGroup_key g _ _ _ _) gs h
  · rename_i h
    exact map_key_upsert_notMem _ _ _ (fun g => updGroup_key g _ _ _ _) gs h

theorem foldGroups_keys_aux (gc : GroupCols) (rows : List Row) :
    ∀ gs : List Group,
      ((rows.foldl (fun a r => groupInsert gc r a) gs).map Group.key) =
        gs.map Group.key ++ firstOcc (gs.map Group.key) (rows.map (rowKeyOf gc)) := by
  induction rows with
  | nil => intro gs; simp [firstOcc]
  | cons r rs ih =>
    intro gs
    simp only [List.foldl_cons, List.map_cons]
    rw [ih]
    by_cases h : rowKeyOf gc r ∈ gs.map Group.key
    · rw [show (groupInsert gc r gs).map Group.key = gs.map Group.key by
        rw [map_key_groupInsert]; simp [h]]
      rw [firstOcc_cons, if_pos h]
    · rw [show (groupInsert gc r gs).map Group.key = gs.map Group.key ++ [rowKeyOf gc r] by
        rw [map_key_groupInsert]; simp [h]]
      rw [firstOcc_cons, if_neg h]
      rw [firstOcc_congr (rs.map (rowKeyOf gc)) (gs.map Group.key ++ [rowKeyOf gc r])
        (rowKeyOf gc r :: gs.map Group.key)
        (by intro x; rw [List.mem_append, List.mem_singleton, List.mem_cons]; tauto)]
      simp

/-- The pre-sort cluster list carries the keys in first-encounter order. -/
theorem foldGroups_keys (gc : GroupCols) (rows : List Row) :
    (foldGroups gc rows).map Group.key = firstOcc [] (rows.map (rowKeyOf gc)) := by
  have := foldGroups_keys_aux gc rows []
  simpa [foldGroups] using this

/-- The rollup revenue is the sum of the coerced revenue column. -/
theorem stats_fat_eq (cf : Option String) (inv : ℚ) (rows : List Row) :
    (stats cf inv rows).fat =
      (rows.map (fun r => toNumOr0 (rowGet r (cf.getD "")))).sum := by
  simp only [stats]
  rw [List.sum_eq_foldl, List.foldl_map]

/-! ## Lemmas about rows and the table builder -/

theorem rowGet_cons (p : String × Scalar) (l : Row) (k : String) :
    rowGet (p :: l) k = if p.1 == k then some p.2 else rowGet l k := by
  cases h : p.1 == k <;> simp [rowGet, List.find?_cons, h]

theorem rowGet_rowSet_self (r : Row) (k : String) (v : Scalar) :
    rowGet (rowSet r k v) k = some v := by
  induction r with
  | nil => simp [rowSet, rowGet_cons]
  | cons p rest ih =>
    unfold rowSet
    split
    · simp [rowGet_cons]
    · rename_i hne
      rw [rowGet_cons, if_neg (by simpa using hne), ih]

theorem rowGet_rowSet_ne (r : Row) (k k' : String) (v : Scalar) (hne : k' ≠ k) :
    rowGet (rowSet r k v) k' = rowGet r k' := by
  induction r with
  | nil =>
    have hb : (k == k') = false := by simpa using fun hc => hne hc.symm
    simp [rowSet, rowGet_cons, hb]
  | cons p rest ih =>
    unfold rowSet
    split
    · rename_i heq
      rw [rowGet_cons, rowGet_cons, if_neg (by simpa using fun hc => hne hc.symm),
        if_neg (by simpa [beq_iff_eq.mp heq] using fun hc => hne hc.symm)]
    · rw [rowGet_cons, rowGet_cons, ih]

theorem rowGet_buildRow_notMem (vals : List String) (hs : List String) (k : String)
    (h : k ∉ hs) : ∀ (i : Nat) (r : Row), rowGet (buildRow vals hs i r) k = rowGet r k := by
  induction hs with
  | nil => intro i r; rfl
  | cons h0 rest ih =>
    intro i r
    simp only [List.mem_cons, not_or] at h
    unfold buildRow
    rw [ih h.2, rowGet_rowSet_ne _ _ _ _ h.1]

theorem rowGet_buildRow_mem_ge (vals : List String) (hs : List String) (k : String)
    (hk : k ∈ hs) : ∀ (i : Nat) (r : Row), vals.length ≤ i →
      rowGet (buildRow vals hs i r) k = some (Scalar.str "") := by
  induction hs with
  | nil => simp at hk
  | cons h0 rest ih =>
    intro i r hi
    by_cases hmem : k ∈ rest
    · exact ih hmem (i + 1) _ (le_trans hi (Nat.le_succ i))
    · have hk0 : k = h0 := by
        rcases List.mem_cons.mp hk with h | h
        · exact h
        · exact absurd h hmem
      subst hk0
      unfold buildRow
      rw [rowGet_buildRow_notMem vals rest k hmem, List.getD_eq_default _ _ hi]
      exact rowGet_rowSet_self r k (cleanAndParse "")

theorem buildRow_cons (vals : List String) (h : String) (hs : List String) (i : Nat) (r : Row) :
    buildRow vals (h :: hs) i r =
      buildRow vals hs (i + 1) (rowSet r h (cleanAndParse (vals.getD i ""))) := rfl

theorem buildRow_append (vals l1 l2 : List String) :
    ∀ (i : Nat) (r : Row),
      buildRow vals (l1 ++ l2) i r = buildRow vals l2 (i + l1.length) (buildRow vals l1 i r) := by
  induction l1 with
  | nil => intro i r; simp [buildRow]
  | cons h0 rest ih =>
    intro i r
    have h1 : i + (h0 :: rest).length = i + 1 + rest.length := by
      simp only [List.length_cons]
      omega
    rw [show (h0 :: rest) ++ l2 = h0 :: (rest ++ l2) from rfl, buildRow_cons, ih,
      buildRow_cons, h1]

theorem typesGet_map (f : String → ColType) (headers : List String) (h : String)
    (hh : h ∈ headers) :
    typesGet (headers.map (fun hd => (hd, f hd))) h = some (f h) := by
  induction headers with
  | nil => simp at hh
  | cons hd rest ih =>
    simp only [List.map_cons]
    cases h0 : hd == h with
    | true =>
      simp [typesGet, List.find?_cons, h0, beq_iff_eq.mp h0]
    | false =>
      have hmem : h ∈ rest := by
        rcases List.mem_cons.mp hh with h1 | h1
        · exact absurd (beq_iff_eq.mpr h1.symm) (by simp [h0])
        · exact h1
      simpa [typesGet, List.find?_cons, h0] using ih hmem

theorem inferType_eq_number_iff (rows : List Row) (h : String) :
    inferType rows h = ColType.number ↔
      ∃ r ∈ rows, ∃ q, rowGet r h = some (Scalar.num q) := by
  unfold inferType
  cases hf : List.find? (numericCellPred h) rows with
  | none =>
    simp only
    constructor
    · intro hc; exact absurd hc (by decide)
    · rintro ⟨r, hr, q, hq⟩
      have hnot := List.find?_eq_none.mp hf r hr
      exact absurd (show numericCellPred h r = true by simp [numericCellPred, hq]) hnot
  | some r =>
    have hp := List.find?_some hf
    have hmem := List.mem_of_find?_eq_some hf
    have hnum : ∃ q, rowGet r h = some (Scalar.num q) := by
      unfold numericCellPred at hp
      cases hrg : rowGet r h with
      | none => simp [hrg] at hp
      | some sc =>
        cases sc with
        | num q => exact ⟨q, rfl⟩
        | str s => simp [hrg] at hp
    obtain ⟨q, hq⟩ := hnum
    simp only [hq, true_iff]
    exact ⟨r, hmem, q, hq⟩

/-- Following the spec's words for claim C1: the value of "the first row (in
ingestion order) holding a non-empty value for that column" — defined but
non-empty, with no restriction on its type. -/
def specFirstNonEmptyCell (rows : List Row) (h : String) : Option Scalar :=
  (rows.find? (fun r => (rowGet r h).isSome && !(rowGet r h == some (Scalar.str "")))).bind
    (fun r => rowGet r h)

/-! ## Claim C1 -/

/-- C1 counterexample: in the table built from `"col\nabc\n5"` the first
non-empty value of column `col` is the textual `"abc"`, so the claim
demands type `textual`; the code infers `numeric`, because the scan looks
for the first numeric value and skips non-empty textual cells. -/
theorem C1_counterexample :
    (parseCSV "col\nabc\n5").map
        (fun t => (typesGet t.types "col", specFirstNonEmptyCell t.rows "col")) =
      some (some ColType.number, some (Scalar.str "abc")) := by decide

/-- C1 (amended): for every ingested table and header column, the inferred
column type is numeric if and only if some row holds a numeric value for
that column — the inference scan takes the first numeric value, skipping
non-empty textual values, so a column whose first non-empty value is
textual is still typed numeric when a later value is numeric. -/
theorem C1_theorem (csv : String) (t : Table) (h : String)
    (hp : parseCSV csv = some t) (hh : h ∈ t.headers) :
    typesGet t.types h = some ColType.number ↔
      ∃ r ∈ t.rows, ∃ q, rowGet r h = some (Scalar.num q) := by
  cases hl : nonBlankLines csv with
  | nil => simp [parseCSV, hl] at hp
  | cons first dataLines =>
    simp only [parseCSV, hl, Option.some_inj] at hp
    subst hp
    dsimp only at hh ⊢
    rw [typesGet_map (inferType _) _ h hh, Option.some_inj]
    exact inferType_eq_number_iff _ h

/-- The mixed-content one-column CSV text of the C1 counterexample. -/
def csvC1 : String := "col\nabc\n5"

/-- The table `parseCSV` builds from `csvC1`, spelled out. -/
def tblC1 : Table :=
  { headers := ["col"]
    rows := [[("col", Scalar.str "abc")], [("col", Scalar.num 5)]]
    types := [("col", ColType.number)] }

/-- Witness for C1: the amended equivalence applied to the concrete table
of `"col\nabc\n5"`, whose second row holds the numeric `5`. -/
theorem C1_witness : typesGet tblC1.types "col" = some ColType.number :=
  (C1_theorem csvC1 tblC1 "col" (by decide) (by decide)).mpr
    ⟨[("col", Scalar.num 5)], by decide, 5, by decide⟩

/-! ## Claim C9 -/

/-- C9 counterexample: `parseCSV` never deduplicates headers — the CSV text
`"a,a\n1,2"` produces the header list `["a", "a"]`, which is not a sequence
of unique column names. -/
theorem C9_counterexample :
    (parseCSV "a,a\n1,2").map Table.headers = some ["a", "a"] ∧
      ¬ (["a", "a"] : List String).Nodup :=
  ⟨by decide, by decide⟩

/-- C9 (amended): the headers of every built table are exactly the first
non-blank line's comma-split, trimmed, quote-stripped fields, kept verbatim;
they are unique precisely when those fields are pairwise distinct. -/
theorem C9_theorem (csv : String) (t : Table) (hp : parseCSV csv = some t) :
    t.headers =
        (splitOnChar ',' ((nonBlankLines csv).headD "")).map
          (fun h => stripQuotes (jsTrim h)) ∧
      (t.headers.Nodup ↔
        ((splitOnChar ',' ((nonBlankLines csv).headD "")).map
          (fun h => stripQuotes (jsTrim h))).Nodup) := by
  cases hl : nonBlankLines csv with
  | nil => simp [parseCSV, hl] at hp
  | cons first dataLines =>
    simp only [parseCSV, hl, Option.some_inj] at hp
    subst hp
    dsimp only
    exact ⟨rfl, Iff.rfl⟩

/-- The duplicate-header CSV text of the C9 witness. -/
def csvC9 : String := "a,a\n1,2"

/-- The table `parseCSV` builds from `csvC9`: the second field of the row
overwrites the first under the duplicated name. -/
def tblC9 : Table :=
  { headers := ["a", "a"]
    rows := [[("a", Scalar.num 2)]]
    types := [("a", ColType.number), ("a", ColType.number)] }

/-- Witness for C9: the amended statement applied to the duplicate-header
table of `"a,a\n1,2"`. -/
theorem C9_witness :
    tblC9.headers =
        (splitOnChar ',' ((nonBlankLines csvC9).headD "")).map
          (fun h => stripQuotes (jsTrim h)) ∧
      (tblC9.headers.Nodup ↔
        ((splitOnChar ',' ((nonBlankLines csvC9).headD "")).map
          (fun h => stripQuotes (jsTrim h))).Nodup) :=
  C9_theorem csvC9 tblC9 (by decide)

/-! ## Claim C7 -/

theorem rowGet_buildRow_drop (vals headers : List String) (k : String)
    (hn : vals.length ≤ headers.length) (hk : k ∈ headers.drop vals.length) :
    rowGet (buildRow vals headers 0 []) k = some (Scalar.str "") := by
  conv_lhs => rw [← List.take_append_drop vals.length headers]
  rw [buildRow_append, List.length_take, Nat.min_eq_left hn, Nat.zero_add]
  exact rowGet_buildRow_mem_ge vals _ k hk vals.length _ (le_refl _)

/-- C7: `parseCSV` returns null exactly when zero non-blank lines remain
after splitting on CRLF or LF; given a header line and data lines, the
table has one row per non-blank data line, one header per comma-separated
field of the first line, and a row shorter than the header list holds the
empty string at every missing trailing column. -/
theorem C7_theorem (csv : String) :
    (parseCSV csv = none ↔ nonBlankLines csv = []) ∧
      ∀ t, parseCSV csv = some t →
        t.rows.length = (nonBlankLines csv).length - 1 ∧
        t.headers.length = (splitOnChar ',' ((nonBlankLines csv).headD "")).length ∧
        ∀ i j, i < t.rows.length → j < t.headers.length →
          ((qsplit ((nonBlankLines csv).getD (i + 1) "")).map jsTrim).length ≤ j →
          rowGet (t.rows.getD i []) (t.headers.getD j "") = some (Scalar.str "") := by
  cases hl : nonBlankLines csv with
  | nil =>
    refine ⟨by simp [parseCSV, hl], ?_⟩
    intro t hp
    simp [parseCSV, hl] at hp
  | cons first dataLines =>
    refine ⟨by simp [parseCSV, hl], ?_⟩
    intro t hp
    simp only [parseCSV, hl, Option.some_inj] at hp
    subst hp
    dsimp only
    refine ⟨by simp, by simp, ?_⟩
    intro i j hi hj hlen
    rw [List.length_map] at hi
    rw [List.getD_cons_succ] at hlen
    have hrow : (dataLines.map (fun line =>
          buildRow ((qsplit line).map jsTrim)
            ((splitOnChar ',' first).map (fun h => stripQuotes (jsTrim h))) 0 [])).getD i [] =
        buildRow ((qsplit (dataLines.getD i "")).map jsTrim)
          ((splitOnChar ',' first).map (fun h => stripQuotes (jsTrim h))) 0 [] := by
      rw [List.getD_eq_getElem _ _ (by simpa using hi), List.getElem_map,
        List.getD_eq_getElem _ _ hi]
    rw [hrow]
    set H := (splitOnChar ',' first).map (fun h => stripQuotes (jsTrim h)) with hH
    set vals := (qsplit (dataLines.getD i "")).map jsTrim with hvals
    have hvj : vals.length ≤ j := hlen
    have hnle : vals.length ≤ H.length := le_of_lt (lt_of_le_of_lt hvj hj)
    apply rowGet_buildRow_drop vals H _ hnle
    have hj2 : j - vals.length < (H.drop vals.length).length := by
      rw [List.length_drop]
      omega
    have heq : (H.drop vals.length).get ⟨j - vals.length, hj2⟩ = H.getD j "" := by
      rw [List.get_eq_getElem, List.getElem_drop, List.getD_eq_getElem _ _ hj]
      congr 1
      show vals.length + (j - vals.length) = j
      omega
    rw [← heq]
    exact List.getElem_mem _

/-- The short-row CSV text of the C7 witness. -/
def csvC7 : String := "a,b,c\n1"

/-- The table `parseCSV` builds from `csvC7`: one data line shorter than
the header list. -/
def tblC7 : Table :=
  { headers := ["a", "b", "c"]
    rows := [[("a", Scalar.num 1), ("b", Scalar.str ""), ("c", Scalar.str "")]]
    types := [("a", ColType.number), ("b", ColType.string), ("c", ColType.string)] }

/-- Witness for C7: the row/header counts and the trailing fill of the
short row of `"a,b,c\n1"`. -/
theorem C7_witness :
    tblC7.rows.length = (nonBlankLines csvC7).length - 1 ∧
      tblC7.headers.length =
        (splitOnChar ',' ((nonBlankLines csvC7).headD "")).length ∧
      rowGet (tblC7.rows.getD 0 []) (tblC7.headers.getD 2 "") = some (Scalar.str "") := by
  have h := (C7_theorem csvC7).2 tblC7 (by decide)
  exact ⟨h.1, h.2.1, h.2.2 0 2 (by decide) (by decide) (by decide)⟩

/-! ## Claim C5 -/

/-- C5: the scalar parser sends `"R$ 1.234,56"` to `1234.56`, `"12,5%"` to
`12.5` and `"42"` to `42`; and every input whose cleaned form does not
convert to a number comes back as exactly that cleaned string (quote and
whitespace stripping and currency/percent marker removal only). -/
theorem C5_theorem :
    cleanAndParse "R$ 1.234,56" = Scalar.num (1234.56 : ℚ) ∧
      cleanAndParse "12,5%" = Scalar.num (12.5 : ℚ) ∧
      cleanAndParse "42" = Scalar.num 42 ∧
      ∀ s : String, jsNumber (cleanedForm s) = none →
        cleanAndParse s = Scalar.str (cleanedForm s) := by
  refine ⟨by decide, by decide, by decide, ?_⟩
  intro s hs
  by_cases ht : (jsTrim s == "") = true
  · rw [cleanedForm, if_pos ht] at hs
    exact absurd hs (by decide)
  · rw [cleanedForm, if_neg ht] at hs
    simp only [cleanedForm, if_neg ht]
    unfold cleanAndParse
    rw [if_neg ht]
    simp only [hs]

/-- Witness for C5: the non-numeric token `"abc"` survives unchanged. -/
theorem C5_witness :
    jsNumber (cleanedForm "abc") = none ∧
      cleanAndParse "abc" = Scalar.str (cleanedForm "abc") :=
  ⟨by decide, C5_theorem.2.2.2 "abc" (by decide)⟩

/-! ## Claim C2 -/

/-- C2: for every filtered row set, the cluster sale counts sum to the
number of filtered rows, and the cluster revenue sums add up to the rollup
revenue computed over the same rows. -/
theorem C2_theorem (q : Query) (gc : GroupCols) (rows0 : List Row) (inv : ℚ) :
    ((groupedPerformance gc (filteredRows q rows0)).map Group.vendas).sum =
        (filteredRows q rows0).length ∧
      ((groupedPerformance gc (filteredRows q rows0)).map Group.faturamento).sum =
        (stats gc.colFaturamento inv (filteredRows q rows0)).fat := by
  constructor
  · have hperm := ((sortDesc_perm (foldGroups gc (filteredRows q rows0))).map
      Group.vendas).sum_eq
    rw [groupedPerformance, hperm]
    have h1 := sumVendas_foldl gc (filteredRows q rows0) []
    simpa [sumVendas, foldGroups] using h1
  · have hperm := ((sortDesc_perm (foldGroups gc (filteredRows q rows0))).map
      Group.faturamento).sum_eq
    rw [groupedPerformance, hperm, stats_fat_eq]
    have h2 := sumFat_foldl gc (filteredRows q rows0) []
    simpa [sumFat, foldGroups] using h2

/-! ## Claim C3 -/

/-- C3: the rollup satisfies tax = revenue × 0.06,
profit = revenue − investment − tax, and ROAS = revenue / investment when
the investment is positive (the division being well defined) and 0 when it
is zero; per-cluster CPA and ROI are guarded, so none of the divisions can
produce `NaN` or `Infinity`. -/
theorem C3_theorem (q : Query) (rows0 : List Row) (cf : Option String) (inv : ℚ) :
    (stats cf inv (filteredRows q rows0)).imp =
        (stats cf inv (filteredRows q rows0)).fat * (6 / 100) ∧
      (stats cf inv (filteredRows q rows0)).luc =
        (stats cf inv (filteredRows q rows0)).fat - inv -
          (stats cf inv (filteredRows q rows0)).imp ∧
      (0 < inv →
        jsDiv (stats cf inv (filteredRows q rows0)).fat inv =
          some (stats cf inv (filteredRows q rows0)).roas) ∧
      (inv = 0 → (stats cf inv (filteredRows q rows0)).roas = 0) ∧
      ∀ (g : Group) (inv2 : ℚ), (clusterCPA inv2 g).isSome ∧ (clusterROI inv2 g).isSome := by
  refine ⟨rfl, rfl, ?_, ?_, ?_⟩
  · intro hpos
    simp [stats, jsDiv, hpos, ne_of_gt hpos]
  · intro h0
    simp [stats, h0]
  · intro g inv2
    constructor
    · unfold clusterCPA jsDiv
      split
      · rename_i hv
        rw [if_neg (by exact_mod_cast Nat.pos_iff_ne_zero.mp hv)]
        rfl
      · rfl
    · unfold clusterROI jsDiv
      split
      · rename_i hv
        rw [if_neg (ne_of_gt hv)]
        rfl
      · rfl

/-- A sample cluster for the C3 witness. -/
def gC3 : Group := updGroup (initGroup "facebook" "Promo" "facebook|Promo" "01/01/2024") 10
  "A" "N/A" "01/01/2024"

/-- A sample row list for the C3 witness. -/
def rowsC3 : List Row := [[("v", Scalar.num 10)]]

/-- A no-op query (no date column, no filters, empty search) for witnesses. -/
def qAll : Query :=
  ⟨none, none, none, ["v"], [], "", DatePreset.all, "", "", 1700000000000⟩

/-- Witness for C3: the guarded ROAS at investment 2, the zero case at
investment 0, and the per-cluster guards on a concrete cluster. -/
theorem C3_witness :
    jsDiv (stats (some "v") 2 (filteredRows qAll rowsC3)).fat 2 =
        some (stats (some "v") 2 (filteredRows qAll rowsC3)).roas ∧
      (stats (some "v") 0 (filteredRows qAll rowsC3)).roas = 0 ∧
      (clusterCPA 5 gC3).isSome ∧ (clusterROI 5 gC3).isSome :=
  ⟨(C3_theorem qAll rowsC3 (some "v") 2).2.2.1 (by norm_num),
   (C3_theorem qAll rowsC3 (some "v") 0).2.2.2.1 rfl,
   ((C3_theorem qAll rowsC3 (some "v") 0).2.2.2.2 gC3 5).1,
   ((C3_theorem qAll rowsC3 (some "v") 0).2.2.2.2 gC3 5).2⟩

/-! ## Claim C4 -/

/-- C4 failing-input evaluation: the date cell `"a/b/c"` splits on `/` into
exactly three non-numeric parts, so the claim says the row is excluded
under any active date restriction; `parseBrazilianDate` however returns an
`Invalid Date` (truthy, `NaN` time value) instead of `null` — the
`!rowDate` guard does not fire, the `rowDate < sevenDaysAgo` comparison on
a `NaN` time value is false, and the filter keeps the row under the 7-day
preset. -/
theorem C4_failing_eval :
    parseDateStr "a/b/c" = DateVal.invalid ∧
      filteredRows
          ⟨some "data", none, none, ["data"], [], "", DatePreset.d7, "", "",
            1700000000000⟩
          [[("data", Scalar.str "a/b/c")]] =
        [[("data", Scalar.str "a/b/c")]] :=
  ⟨by decide, by decide⟩

/-! ## Claim C6 -/

/-- The two-row Perfect Pay export of the end-to-end scenario. -/
def csvC6 : String :=
  "data,produto,valor,source,campaign\n01/01/2024,A,\"R$ 100,00\",fb_ads,Promo|v2\n02/01/2024,B,\"R$ 50,00\",google,Promo|v2"

/-- The resolved columns of the end-to-end scenario. -/
def gcC6 : GroupCols :=
  ⟨some "source", some "campaign", some "produto", some "content", some "data",
    some "valor"⟩

/-- C6: the pipeline on the two-row input cleans `fb_ads` to `facebook` and
keeps `google`, cleans both campaigns to `Promo`, yields two distinct
clusters of one sale each with revenues 100 and 50, and at investment 0 the
rollup reads revenue 150, tax 9, profit 141 and ROAS 0. -/
theorem C6_theorem :
    (parseCSV csvC6).map
        (fun t =>
          ((groupedPerformance gcC6 t.rows).map
              (fun g => (g.key, g.source, g.campanha, g.vendas, g.faturamento)),
            stats (some "valor") 0 t.rows)) =
      some ([("facebook|Promo", "facebook", "Promo", (1 : Nat), (100 : ℚ)),
              ("google|Promo", "google", "Promo", (1 : Nat), (50 : ℚ))],
            ({ fat := 150, gas := 0, imp := 9, luc := 141, roas := 0 } : Stats)) := by decide

/-! ## Claim C8 -/

/-- C8: the grouping engine returns the clusters sorted by descending sale
count; clusters with an equal count appear in key-first-encounter order —
the pre-sort list `foldGroups` carries the keys in the order they are first
met among the filtered rows, and the stable sort preserves the relative
order of every equal-count class. -/
theorem C8_theorem (q : Query) (gc : GroupCols) (rows0 : List Row) :
    ((groupedPerformance gc (filteredRows q rows0)).Pairwise
        (fun a b => b.vendas ≤ a.vendas)) ∧
      (∀ n : Nat,
        (groupedPerformance gc (filteredRows q rows0)).filter (fun g => g.vendas == n) =
          (foldGroups gc (filteredRows q rows0)).filter (fun g => g.vendas == n)) ∧
      (foldGroups gc (filteredRows q rows0)).map Group.key =
        firstOcc [] ((filteredRows q rows0).map (rowKeyOf gc)) :=
  ⟨pairwise_sortDesc _, fun n => filter_sortDesc _ n, foldGroups_keys gc _⟩

/-! ## Claim C10 -/

/-- C10: with a date column identified, the `custom` preset and an empty
custom start or end date, the filter applies no date bound at all, yet
still drops every row whose date parses to `null`, because the null check
runs before the bounds are consulted. -/
theorem C10_theorem (q : Query) (cd : String) (rows : List Row)
    (hcd : q.colData = some cd) (hpre : q.datePreset = DatePreset.custom)
    (hempty : q.customStartDate = "" ∨ q.customEndDate = "") :
    (∀ row, datePass q row = !(parseBrazilianDate (rowGet row cd)).isNull) ∧
      filteredRows q rows =
        rows.filter (fun row =>
          !(parseBrazilianDate (rowGet row cd)).isNull &&
            (matchesFilters q row && matchesSearch q row)) := by
  have hdp : ∀ row, datePass q row = !(parseBrazilianDate (rowGet row cd)).isNull := by
    intro row
    simp only [datePass, hcd, hpre]
    rcases hempty with he | he <;>
      cases hnull : (parseBrazilianDate (rowGet row cd)).isNull <;>
        simp [he, hnull]
  refine ⟨hdp, ?_⟩
  unfold filteredRows rowPasses
  apply List.filter_congr
  intro row _
  rw [hdp row]

/-- A custom-preset query with an empty start date for the C10 witness. -/
def q10 : Query :=
  ⟨some "data", none, none, ["data"], [], "", DatePreset.custom, "", "2024-02-01",
    1700000000000⟩

/-- Rows with a null-parsing, an invalid, and a valid date for C10. -/
def rows10 : List Row :=
  [[("data", Scalar.str "xyz")], [("data", Scalar.str "a/b/c")],
    [("data", Scalar.str "01/10/2023")]]

/-- Witness for C10: the filter over the three sample rows keeps exactly
the non-null-date rows, no bound applied. -/
theorem C10_witness :
    filteredRows q10 rows10 =
      rows10.filter (fun row =>
        !(parseBrazilianDate (rowGet row "data")).isNull &&
          (matchesFilters q10 row && matchesSearch q10 row)) :=
  (C10_theorem q10 "data" rows10 rfl rfl (Or.inl rfl)).2

end UTM
